import Mathlib

/-!
# Blockchain_Verification: rate-limited retrying API client and reconciliation loop

A shallow embedding of `api/client.go` (rate limiter, retrying query client, amount
normalisation) and of the reconciliation loop of `main.go`, followed by the properties
proved about them.

Conventions of the embedding.

* `time.Time` (monotonic reading) and `time.Duration` are integers counting nanoseconds.
  Differences of clock readings stay far below the `int64` range for any run shorter than
  292 years, so no wrap-around is modelled.
* Go's `float64` is modelled exactly: a value is NaN, an infinity, or a signed rational
  magnitude, and every arithmetic result is rounded to the nearest binary64 value, ties to
  even (`roundMag`).
* `strconv.ParseFloat`, `strconv.Atoi` belong to the Go standard library, not to the
  repository: the client takes them as a parameter (`Strconv`), and `goStrconv` is a reference
  instance for plain decimal texts.
* Statements take no time: the clock advances only inside `time.Sleep`, during an HTTP
  exchange, and between calls. `time.Sleep(d)` advances it by `d` plus an oversleep that the
  surroundings choose.
* A run-time panic (index out of range) is the `none` of an `Option`.
* The mutex of `RateLimiter` is not modelled: the program is sequential (one caller).
-/

namespace BlockchainVerification

/-! ## float64 -/

/-- The rational `2 ^ p` for an integer exponent. -/
def pow2 (p : Int) : ℚ :=
  if 0 ≤ p then ((2 ^ p.toNat : Nat) : ℚ) else 1 / ((2 ^ (-p).toNat : Nat) : ℚ)

/-- Number of binary digits of `n`, by halving (`fuel` bounds the recursion; `n` suffices). -/
def bitLen : Nat → Nat → Nat
  | 0, _ => 0
  | fuel + 1, n => if n = 0 then 0 else bitLen fuel (n / 2) + 1

/-- The integer `e` with `2 ^ e ≤ q < 2 ^ (e + 1)`, for a positive rational `q`. -/
def floorLog2 (q : ℚ) : Int :=
  let k : Int := (bitLen q.num.natAbs q.num.natAbs : Int) - (bitLen q.den q.den : Int)
  if pow2 k ≤ q then k else k - 1

/-- Nearest natural number to a non-negative rational, ties to the even neighbour. -/
def roundHalfEven (x : ℚ) : Nat :=
  let f := x.num.toNat / x.den
  let r := x - (f : ℚ)
  if r < 1 / 2 then f else if 1 / 2 < r then f + 1 else if f % 2 = 0 then f else f + 1

/-- Round a non-negative rational magnitude to binary64 (53-bit significand, minimum exponent
`-1022`, subnormals included), round-to-nearest-even. `none` is overflow (at least `2 ^ 1024`
after rounding). -/
def roundMag (q : ℚ) : Option ℚ :=
  if q = 0 then some 0 else
  let e := floorLog2 q
  let p := max e (-1022) - 52
  let v := (roundHalfEven (q / pow2 p) : ℚ) * pow2 p
  if pow2 1024 ≤ v then none else some v

/-- A `float64` value: NaN, a signed infinity, or a finite number given by its sign bit and
its magnitude (so `fin true 0` is the negative zero). -/
inductive F64 where
  | nan : F64
  | inf (neg : Bool) : F64
  | fin (neg : Bool) (mag : ℚ) : F64
deriving DecidableEq

namespace F64

/-- The float64 nearest to the real number of sign `neg` and magnitude `q`. -/
def round (neg : Bool) (q : ℚ) : F64 :=
  match roundMag q with
  | some m => fin neg m
  | none => inf neg

/-- The float64 of a decimal constant `n / d` of the source text (`1.0`, `10`, `0.00000001`). -/
def lit (n d : Nat) : F64 := round false ((n : ℚ) / (d : ℚ))

/-- Signed rational value of a finite float. -/
def signed (neg : Bool) (mag : ℚ) : ℚ := if neg then -mag else mag

/-- Unary minus. -/
def neg : F64 → F64
  | nan => nan
  | inf s => inf (!s)
  | fin s m => fin (!s) m

/-- IEEE 754 addition. -/
def add : F64 → F64 → F64
  | nan, _ => nan
  | _, nan => nan
  | inf s, inf t => if s = t then inf s else nan
  | inf s, fin _ _ => inf s
  | fin _ _, inf t => inf t
  | fin s m, fin t n =>
    let v := signed s m + signed t n
    if v = 0 then fin (s && t) 0 else round (decide (v < 0)) |v|

/-- IEEE 754 subtraction, Go's `x - y`. -/
def sub (x y : F64) : F64 := add x (neg y)

/-- IEEE 754 multiplication, Go's `x * y`. -/
def mul : F64 → F64 → F64
  | nan, _ => nan
  | _, nan => nan
  | inf s, inf t => inf (xor s t)
  | inf s, fin t n => if n = 0 then nan else inf (xor s t)
  | fin s m, inf t => if m = 0 then nan else inf (xor s t)
  | fin s m, fin t n => round (xor s t) (m * n)

/-- IEEE 754 division, Go's `x / y`. -/
def div : F64 → F64 → F64
  | nan, _ => nan
  | _, nan => nan
  | inf _, inf _ => nan
  | inf s, fin t _ => inf (xor s t)
  | fin s _, inf t => fin (xor s t) 0
  | fin s m, fin t n =>
    if n = 0 then (if m = 0 then nan else inf (xor s t)) else round (xor s t) (m / n)

/-- Go's `math.Abs`. -/
def abs : F64 → F64
  | nan => nan
  | inf _ => inf false
  | fin _ m => fin false m

/-- Go's `x > y` on float64: false as soon as one side is NaN. -/
def gt : F64 → F64 → Bool
  | nan, _ => false
  | _, nan => false
  | inf s, inf t => !s && t
  | inf s, fin _ _ => !s
  | fin _ _, inf t => t
  | fin s m, fin t n => decide (signed t n < signed s m)

/-- Go's `x <= y` on float64: false as soon as one side is NaN. -/
def le : F64 → F64 → Bool
  | nan, _ => false
  | _, nan => false
  | inf s, inf t => s || !t
  | inf s, fin _ _ => s
  | fin _ _, inf t => !t
  | fin s m, fin t n => decide (signed s m ≤ signed t n)

/-- Whether the value is NaN. -/
def isNaN : F64 → Bool
  | nan => true
  | _ => false

end F64

/-! ## Rate limiter (`api/client.go`, lines 67-115) -/

/-! Clock readings (`time.Time`) and durations (`time.Duration`) are `Int`, in nanoseconds. -/

/-- Go's `time.Second`. -/
def Second : Int := 1000000000

/-- Go's `time.Minute`. -/
def Minute : Int := 60 * Second

/-- The struct `RateLimiter` (without its mutex). -/
structure RateLimiter where
  maxRequests : Int
  timeWindow : Int
  requests : List Int
deriving DecidableEq

/-- `NewRateLimiter`: stores its arguments and an empty request list; there is no check. -/
def NewRateLimiter (maxRequests : Int) (timeWindow : Int) : RateLimiter :=
  { maxRequests := maxRequests, timeWindow := timeWindow, requests := [] }

/-- What a call of `RateLimiter.Wait` did: the limiter it leaves, the argument of its
`time.Sleep` call if it made one, and the clock reading at which it returns. -/
structure Waited where
  limiter : RateLimiter
  slept : Option Int
  clock : Int
deriving DecidableEq

/-- `RateLimiter.Wait`, entered when the clock reads `now` (the value `time.Now()` returns).
`late` is the amount by which `time.Sleep` oversleeps, should it be called. The result is
`none` when `rl.requests[0]` indexes an empty slice. -/
def RateLimiter.Wait (rl : RateLimiter) (now : Int) (late : Nat) : Option Waited :=
  let validRequests := rl.requests.filter (fun reqTime => decide (now - reqTime < rl.timeWindow))
  if rl.maxRequests ≤ (validRequests.length : Int) then
    match validRequests with
    | [] => none
    | oldestReq :: rest =>
      let waitTime := rl.timeWindow - (now - oldestReq)
      if 0 < waitTime then
        some { limiter := { rl with requests := rest ++ [now] }
               slept := some waitTime
               clock := now + waitTime + (late : Int) }
      else
        some { limiter := { rl with requests := rest ++ [now] }, slept := none, clock := now }
  else
    some { limiter := { rl with requests := validRequests ++ [now] }, slept := none, clock := now }

/-- One call in a sequential schedule of `Wait` calls: `gap` nanoseconds pass between the
return of the previous call and this call's `time.Now()`, and its `time.Sleep`, if any,
oversleeps by `late` nanoseconds. -/
structure Call where
  gap : Nat
  late : Nat
deriving DecidableEq

/-- Run a schedule of sequential `Wait` calls from clock reading `clock`; the result lists
the clock readings at which the calls return (their admission times). -/
def runWaits : RateLimiter → Int → List Call → Option (List Int)
  | _, _, [] => some []
  | rl, clock, c :: cs =>
    match rl.Wait (clock + (c.gap : Int)) c.late with
    | none => none
    | some w =>
      match runWaits w.limiter w.clock cs with
      | none => none
      | some ts => some (w.clock :: ts)

/-- Number of admission times in the half-open interval `[a, a + W)`. -/
def admittedIn (a : Int) (W : Int) (ts : List Int) : Nat :=
  (ts.filter (fun t => decide (a ≤ t ∧ t < a + W))).length

/-! ## Strings and the standard library -/

deriving instance DecidableEq for Except

/-- Whether `sub` occurs in `cs` as a contiguous block. -/
def containsChars : List Char → List Char → Bool
  | [], sub => sub.isEmpty
  | c :: cs, sub => sub.isPrefixOf (c :: cs) || containsChars cs sub

/-- Go's `strings.Contains(s, substr)`. -/
def Contains (s substr : String) : Bool := containsChars s.data substr.data

/-- The two `strconv` functions the client calls. A failure carries the text `err.Error()`.
`ParseFloat s` stands for `strconv.ParseFloat(s, 64)`. -/
structure Strconv where
  ParseFloat : String → Except String F64
  Atoi : String → Except String Int

/-- The leading decimal digits of a text, as numbers, and what follows them. -/
def takeDigits : List Char → List Nat × List Char
  | [] => ([], [])
  | c :: cs =>
    if '0' ≤ c ∧ c ≤ '9' then
      ((c.toNat - 48) :: (takeDigits cs).1, (takeDigits cs).2)
    else ([], c :: cs)

/-- The number written by a list of decimal digits. -/
def natOfDigits (ds : List Nat) : Nat := ds.foldl (fun acc d => 10 * acc + d) 0

/-- Scale a rational by `10 ^ e` for an exponent of sign `neg` and magnitude `e`. -/
def scale10 (q : ℚ) (neg : Bool) (e : Nat) : ℚ :=
  if neg then q / ((10 ^ e : Nat) : ℚ) else q * ((10 ^ e : Nat) : ℚ)

/-- The exact value of an unsigned decimal numeral `digits [. digits] [e [+|-] digits]` with at
least one mantissa digit; `none` for any other text. -/
def parseDecimal (cs : List Char) : Option ℚ :=
  let ip := takeDigits cs
  let fp := match ip.2 with
    | '.' :: r => takeDigits r
    | r => ([], r)
  if ip.1.isEmpty && fp.1.isEmpty then none else
  let mant : ℚ := (natOfDigits (ip.1 ++ fp.1) : ℚ) / ((10 ^ fp.1.length : Nat) : ℚ)
  match fp.2 with
  | [] => some mant
  | e :: r =>
    if e = 'e' ∨ e = 'E' then
      let sg := match r with
        | '+' :: r2 => (false, r2)
        | '-' :: r2 => (true, r2)
        | r2 => (false, r2)
      let ed := takeDigits sg.2
      if ed.1.isEmpty || !ed.2.isEmpty then none
      else some (scale10 mant sg.1 (natOfDigits ed.1))
    else none

/-- The text of a `*strconv.NumError`, for an input that `strconv.Quote` leaves unescaped. -/
def numError (fn s msg : String) : String :=
  "strconv." ++ fn ++ ": parsing \"" ++ s ++ "\": " ++ msg

/-- Reference behaviour of `strconv.ParseFloat(s, 64)` on plain decimal texts: an optional
sign, then `inf`, `infinity`, or a decimal numeral, correctly rounded; the unsigned text `nan`;
overflow is an error. Hexadecimal numerals and digit-separating underscores, which Go also
accepts, are outside this reference and reported as syntax errors. -/
def goParseFloat (s : String) : Except String F64 :=
  let sg := match s.data with
    | '+' :: r => (false, r)
    | '-' :: r => (true, r)
    | r => (false, r)
  let low := String.mk (sg.2.map Char.toLower)
  if (String.mk (s.data.map Char.toLower)) = "nan" then .ok F64.nan
  else if low = "inf" ∨ low = "infinity" then .ok (F64.inf sg.1)
  else match parseDecimal sg.2 with
    | none => .error (numError "ParseFloat" s "invalid syntax")
    | some q =>
      match roundMag q with
      | some m => .ok (F64.fin sg.1 m)
      | none => .error (numError "ParseFloat" s "value out of range")

/-- Reference behaviour of `strconv.Atoi` for a 64-bit `int`: an optional sign and decimal
digits, within the `int64` range. -/
def goAtoi (s : String) : Except String Int :=
  let sg := match s.data with
    | '+' :: r => (false, r)
    | '-' :: r => (true, r)
    | r => (false, r)
  let ds := takeDigits sg.2
  if ds.1.isEmpty || !ds.2.isEmpty then .error (numError "Atoi" s "invalid syntax")
  else
    let v : Int := if sg.1 then -(natOfDigits ds.1 : Int) else (natOfDigits ds.1 : Int)
    if v < -9223372036854775808 ∨ 9223372036854775807 < v then
      .error (numError "Atoi" s "value out of range")
    else .ok v

/-- The reference instance of the `strconv` functions. -/
def goStrconv : Strconv := { ParseFloat := goParseFloat, Atoi := goAtoi }

/-! ## Query client (`api/client.go`, lines 14-65 and 117-260) -/

/-- An element of `Data.TokenTransfer`; only the two fields the client reads are kept. -/
structure TokenTransferItem where
  TokenDecimals : String
  Value : String
deriving DecidableEq

/-- The `Data` object of `TokenViewResponse`; only the fields the client reads are kept. -/
structure TokenViewData where
  Txid : String
  Value : String
  TokenTransfer : List TokenTransferItem
deriving DecidableEq

/-- The struct `TokenViewResponse`, restricted to what the client reads after decoding. -/
structure TokenViewResponse where
  Code : Int
  Msg : String
  Data : TokenViewData
deriving DecidableEq

/-- The struct `TransactionResponse`. -/
structure TransactionResponse where
  TxID : String
  Amount : F64
  Status : String
deriving DecidableEq

/-- What one call of `queryTransactionOnce` gets from the HTTP and JSON layers:
`http.NewRequest` fails, `httpClient.Do` fails, `io.ReadAll` fails (each with the text of the
error), or a response arrives with its status code, its body, and the outcome of
`json.Unmarshal` on that body. -/
inductive Reply where
  | requestFailed (err : String) : Reply
  | doFailed (err : String) : Reply
  | readFailed (err : String) : Reply
  | response (StatusCode : Int) (body : String) (unmarshal : Except String TokenViewResponse) :
      Reply

/-- The loop `for i := 0; i < decimals; i++ { divisor *= 10 }`, with `n` iterations left. -/
def divisorLoop : Nat → F64 → F64
  | 0, divisor => divisor
  | n + 1, divisor => divisorLoop n (F64.mul divisor (F64.lit 10 1))

/-- Lines 217-250 of `queryTransactionOnce`: the amount of a decoded payload. -/
def amountOf (sc : Strconv) (apiResp : TokenViewResponse) : Except String F64 :=
  match apiResp.Data.TokenTransfer with
  | tokenTransfer :: _ =>
    match sc.ParseFloat tokenTransfer.Value with
    | .error err => .error ("解析代币金额失败: " ++ err ++ ", 原始值: " ++ tokenTransfer.Value)
    | .ok tokenValue =>
      match sc.Atoi tokenTransfer.TokenDecimals with
      | .error err =>
        .error ("解析代币精度失败: " ++ err ++ ", 原始值: " ++ tokenTransfer.TokenDecimals)
      | .ok decimals =>
        .ok (F64.div tokenValue (divisorLoop decimals.toNat (F64.lit 1 1)))
  | [] =>
    match sc.ParseFloat apiResp.Data.Value with
    | .error err => .error ("解析金额失败: " ++ err ++ ", 原始值: " ++ apiResp.Data.Value)
    | .ok amount => .ok amount

/-- Lines 181-259 of `queryTransactionOnce`: everything after the rate-limiter wait and the
construction of the URL, as a function of what the HTTP and JSON layers delivered. -/
def processReply (sc : Strconv) : Reply → Except String TransactionResponse
  | .requestFailed err => .error ("创建请求失败: " ++ err)
  | .doFailed err => .error ("API请求失败: " ++ err)
  | .readFailed err => .error ("读取响应失败: " ++ err)
  | .response StatusCode body unmarshal =>
    if StatusCode ≠ 200 then
      .error ("API返回错误状态码: " ++ toString StatusCode ++ ", 响应: " ++ body)
    else
      match unmarshal with
      | .error err => .error ("解析响应失败: " ++ err ++ ", 响应内容: " ++ body)
      | .ok apiResp =>
        if apiResp.Code ≠ 1 then
          .error ("API返回错误: code=" ++ toString apiResp.Code ++ ", msg=" ++ apiResp.Msg)
        else
          match amountOf sc apiResp with
          | .error err => .error err
          | .ok amount =>
            .ok { TxID := apiResp.Data.Txid, Amount := amount, Status := "success" }

/-- The struct `Client`: its configuration, the timeout of its HTTP client, and the state of
the rate limiter it points to. -/
structure Client where
  endpoint : String
  apiKey : String
  chainSymbol : String
  timeout : Int
  rateLimiter : RateLimiter

/-- `NewClient`. -/
def NewClient (endpoint apiKey chainSymbol : String) : Client :=
  { endpoint := endpoint
    apiKey := apiKey
    chainSymbol := chainSymbol
    timeout := 30 * Second
    rateLimiter := NewRateLimiter 299 Minute }

/-- What the surroundings decide during a run: the reply the `k`-th call of
`queryTransactionOnce` receives, the time that call spends on its HTTP exchange, and the
oversleep of the `k`-th call of `time.Sleep`. -/
structure Env where
  reply : Nat → Reply
  elapsed : Nat → Nat
  late : Nat → Nat

/-- The observable steps of the client. -/
inductive Event where
  | attempt (txid : String) : Event
  | throttle (d : Int) : Event
  | get (url : String) : Event
  | backoff (d : Int) : Event
deriving DecidableEq

/-- The state of a run: the clock, the client, how many calls of `queryTransactionOnce` and of
`time.Sleep` have been made, and the steps taken so far (`attempt`: `queryTransactionOnce` is
entered; `throttle d`: `RateLimiter.Wait` calls `time.Sleep(d)`; `get url`: the request is
sent; `backoff d`: `QueryTransaction` calls `time.Sleep(d)`). -/
structure Sys where
  clock : Int
  client : Client
  calls : Nat
  sleeps : Nat
  trace : List Event

/-- `time.Sleep(d)` called by `QueryTransaction`. -/
def Sys.Sleep (env : Env) (d : Int) (s : Sys) : Sys :=
  { s with
    clock := s.clock + d + (env.late s.sleeps : Int)
    sleeps := s.sleeps + 1
    trace := s.trace ++ [Event.backoff d] }

/-- `Client.queryTransactionOnce`. -/
def queryTransactionOnce (sc : Strconv) (env : Env) (txid : String) (s : Sys) :
    Option (Except String TransactionResponse × Sys) :=
  match s.client.rateLimiter.Wait s.clock (env.late s.sleeps) with
  | none => none
  | some w =>
    let url := s.client.endpoint ++ "/" ++ s.client.chainSymbol ++ "/" ++ txid ++ "?apikey=" ++
      s.client.apiKey
    let reply := env.reply s.calls
    let slept := match w.slept with
      | some d => [Event.throttle d]
      | none => []
    let sent := match reply with
      | .requestFailed _ => []
      | _ => [Event.get url]
    some (processReply sc reply,
      { clock := w.clock + (env.elapsed s.calls : Int)
        client := { s.client with rateLimiter := w.limiter }
        calls := s.calls + 1
        sleeps := s.sleeps + slept.length
        trace := s.trace ++ [Event.attempt txid] ++ slept ++ sent })

/-- `isTimeoutError`; the argument is `none` for a nil error and the text `err.Error()`
otherwise. -/
def isTimeoutError (err : Option String) : Bool :=
  match err with
  | none => false
  | some errStr =>
    Contains errStr "timeout" || Contains errStr "deadline exceeded" ||
      Contains errStr "connection refused"

/-- The constant `maxRetries` of `QueryTransaction`. -/
def maxRetries : Nat := 3

/-- The iteration `attempt` of the loop of `QueryTransaction` and those after it, `more` being
the number of iterations still allowed after this one (`maxRetries - 1 - attempt`). -/
def QueryTransaction.loop (sc : Strconv) (env : Env) (txid : String) :
    Nat → Nat → Sys → Option (Except String TransactionResponse × Sys)
  | more, attempt, s =>
    let s1 := if 0 < attempt then Sys.Sleep env ((attempt : Int) * 2 * Second) s else s
    match queryTransactionOnce sc env txid s1 with
    | none => none
    | some (.ok result, s2) => some (.ok result, s2)
    | some (.error err, s2) =>
      if !isTimeoutError (some err) then some (.error err, s2)
      else
        match more with
        | 0 => some (.error err, s2)
        | m + 1 => QueryTransaction.loop sc env txid m (attempt + 1) s2

/-- `Client.QueryTransaction`. Since `maxRetries` is 3 the loop body runs at least once, so
`lastErr` is set whenever the loop is left without a result: the pair `(nil, lastErr)` is
`Except.error lastErr`. -/
def QueryTransaction (sc : Strconv) (env : Env) (txid : String) (s : Sys) :
    Option (Except String TransactionResponse × Sys) :=
  QueryTransaction.loop sc env txid (maxRetries - 1) 0 s

/-- The steps of a trace that `QueryTransaction` itself takes: entering
`queryTransactionOnce` and its own sleeps. -/
def retrySteps (trace : List Event) : List Event :=
  trace.filter (fun e =>
    match e with
    | .attempt _ => true
    | .backoff _ => true
    | _ => false)

/-! ## Reconciliation loop (`main.go`, lines 58-118) -/

/-- The struct `csv.Transaction`. -/
structure Transaction where
  TxID : String
  Amount : F64
  Row : Int
deriving DecidableEq

/-- The struct `logger.MismatchRecord` (without its `CheckTime` stamp). -/
structure MismatchRecord where
  TxID : String
  CSVAmount : F64
  APIAmount : F64
  Difference : F64
  Row : Int
deriving DecidableEq

/-- The struct `logger.FailedRecord` (without its `CheckTime` stamp). -/
structure FailedRecord where
  TxID : String
  Row : Int
  Reason : String
deriving DecidableEq

/-- A call made to the logger. -/
inductive LogCall where
  | LogFailed (record : FailedRecord) : LogCall
  | LogMismatch (record : MismatchRecord) : LogCall
  | WriteSummary (total success mismatch failed : Int) : LogCall
deriving DecidableEq

/-- The variables of `main` during the loop: the three counters, the calls made to the logger
so far, and the state of the API client. -/
structure MainState (σ : Type) where
  mismatchCount : Int
  failedCount : Int
  successCount : Int
  logged : List LogCall
  api : σ

/-- The constant `tolerance := 0.00000001`. -/
def tolerance : F64 := F64.lit 1 100000000

/-- The body of the loop of `main` for one transaction (the progress line it prints is not
modelled). `QueryTransaction` is the API client: it maps a transaction id and the client's
state to the call's outcome and the new state. -/
def mainBody {σ : Type} (QueryTransaction : String → σ → Except String TransactionResponse × σ)
    (m : MainState σ) (tx : Transaction) : MainState σ :=
  match QueryTransaction tx.TxID m.api with
  | (.error err, api) =>
    { m with
      api := api
      logged := m.logged ++ [LogCall.LogFailed { TxID := tx.TxID, Row := tx.Row, Reason := err }]
      failedCount := m.failedCount + 1 }
  | (.ok apiResp, api) =>
    let diff := F64.abs (F64.sub tx.Amount apiResp.Amount)
    if F64.gt diff tolerance then
      { m with
        api := api
        logged := m.logged ++ [LogCall.LogMismatch
          { TxID := tx.TxID
            CSVAmount := tx.Amount
            APIAmount := apiResp.Amount
            Difference := F64.sub tx.Amount apiResp.Amount
            Row := tx.Row }]
        mismatchCount := m.mismatchCount + 1
        successCount := m.successCount + 1 }
    else
      { m with api := api, successCount := m.successCount + 1 }

/-- Lines 58-118 of `main`: the counters start at zero, the loop runs over the transactions
in order, and `WriteSummary` receives the length of the list and the three counters. -/
def mainLoop {σ : Type} (QueryTransaction : String → σ → Except String TransactionResponse × σ)
    (transactions : List Transaction) (api : σ) : MainState σ :=
  let m := transactions.foldl (mainBody QueryTransaction)
    { mismatchCount := 0, failedCount := 0, successCount := 0, logged := [], api := api }
  { m with
    logged := m.logged ++
      [LogCall.WriteSummary transactions.length m.successCount m.mismatchCount m.failedCount] }

/-- An API client that records the ids it is asked for and answers its `k`-th call (counting
from 0) with `assign k`. -/
def scripted (assign : Nat → Except String TransactionResponse) (txid : String)
    (asked : List String) : Except String TransactionResponse × List String :=
  (assign asked.length, asked ++ [txid])

/-! ## Sample runs -/

/-- A run starts at clock reading 0 with a client built by `NewClient`. -/
def startSys : Sys :=
  { clock := 0
    client := NewClient "https://services.tokenview.io/vipapi/tx" "" "bsc"
    calls := 0
    sleeps := 0
    trace := [] }

/-- Surroundings in which every call gets the same reply after 1 ms, sleeps being exact. -/
def constEnv (r : Reply) : Env :=
  { reply := fun _ => r, elapsed := fun _ => 1000000, late := fun _ => 0 }

/-- Every request runs into the timeout of the HTTP client. -/
def timeoutEnv : Env := constEnv (.doFailed "context deadline exceeded")

/-- A payload with the given envelope and no amount. -/
def envelope (code : Int) (msg : String) : TokenViewResponse :=
  { Code := code, Msg := msg, Data := { Txid := "", Value := "", TokenTransfer := [] } }

/-- The server answers `code = 0` with the message `timeout`. -/
def codeZeroEnv : Env :=
  constEnv (.response 200 "\x7b\"code\":0,\"msg\":\"timeout\"\x7d" (.ok (envelope 0 "timeout")))

/-- The server answers `code = 0` with the message `not found`. -/
def notFoundEnv : Env :=
  constEnv (.response 200 "\x7b\"code\":0,\"msg\":\"not found\"\x7d"
    (.ok (envelope 0 "not found")))

/-- A successful payload for transaction `0xdef` with native value `5`. -/
def otherTxidPayload : TokenViewResponse :=
  { Code := 1, Msg := "", Data := { Txid := "0xdef", Value := "5", TokenTransfer := [] } }

/-- The server answers every request with the payload of transaction `0xdef`. -/
def otherTxidEnv : Env := constEnv (.response 200 "" (.ok otherTxidPayload))

/-- The first request times out, every later one gets the payload of transaction `0xdef`. -/
def retryThenOkEnv : Env :=
  { reply := fun k =>
      if k = 0 then .doFailed "context deadline exceeded"
      else .response 200 "" (.ok otherTxidPayload)
    elapsed := fun _ => 1000000
    late := fun _ => 0 }

/-! ## Reference notions used in the statements -/

/-- The power `x ^ n` in float64 by the standard recursion `x ^ 0 = 1`, `x ^ (n + 1) = x ^ n * x`;
`F64.pow (F64.lit 10 1) d` is the divisor `10 ^ d` of the specification. -/
def F64.pow (x : F64) : Nat → F64
  | 0 => F64.lit 1 1
  | n + 1 => F64.mul (F64.pow x n) x

/-- The transactions paired with the outcomes of their queries, when the `k`-th query made
(counting from 0) is answered by `assign k` and the first transaction of the list is queried
as number `k`. -/
def outcomesFrom (assign : Nat → Except String TransactionResponse) :
    Nat → List Transaction → List (Transaction × Except String TransactionResponse)
  | _, [] => []
  | k, tx :: txs => (tx, assign k) :: outcomesFrom assign (k + 1) txs

/-- The query of the transaction returned an error. -/
def isFailed (p : Transaction × Except String TransactionResponse) : Bool :=
  match p.2 with
  | .error _ => true
  | .ok _ => false

/-- The query of the transaction succeeded. -/
def isSuccess (p : Transaction × Except String TransactionResponse) : Bool :=
  match p.2 with
  | .error _ => false
  | .ok _ => true

/-- The query succeeded and `|csv - api| > 1e-8` in float64. -/
def isMismatch (p : Transaction × Except String TransactionResponse) : Bool :=
  match p.2 with
  | .error _ => false
  | .ok apiResp => F64.gt (F64.abs (F64.sub p.1.Amount apiResp.Amount)) tolerance

/-- A payload with code 1, native value `7`, and two token transfers, the first of value
`123000` with 3 decimals. -/
def tokenPayload : TokenViewResponse :=
  { Code := 1
    Msg := ""
    Data :=
      { Txid := "0xabc"
        Value := "7"
        TokenTransfer :=
          [{ TokenDecimals := "3", Value := "123000" }, { TokenDecimals := "0", Value := "9" }] } }

/-- A payload with code 1 whose only token transfer has the given value and decimals. -/
def singleTransfer (value decimals : String) : TokenViewResponse :=
  { Code := 1
    Msg := ""
    Data :=
      { Txid := "0xabc"
        Value := "7"
        TokenTransfer := [{ TokenDecimals := decimals, Value := value }] } }

/-- The state of `main` before the loop, for the scripted client. -/
def startMain : MainState (List String) :=
  { mismatchCount := 0, failedCount := 0, successCount := 0, logged := [], api := [] }

/-- A successful result with the given amount. -/
def okAmount (a : F64) : Except String TransactionResponse :=
  .ok { TxID := "0xabc", Amount := a, Status := "success" }

/-- The record the loop hands to the logger for a transaction and the outcome of its query:
a failure record, a mismatch record, or nothing for a matched row. -/
def recordOf (p : Transaction × Except String TransactionResponse) : Option LogCall :=
  match p.2 with
  | .error err => some (LogCall.LogFailed { TxID := p.1.TxID, Row := p.1.Row, Reason := err })
  | .ok apiResp =>
    if F64.gt (F64.abs (F64.sub p.1.Amount apiResp.Amount)) tolerance then
      some (LogCall.LogMismatch
        { TxID := p.1.TxID
          CSVAmount := p.1.Amount
          APIAmount := apiResp.Amount
          Difference := F64.sub p.1.Amount apiResp.Amount
          Row := p.1.Row })
    else none

/-- Three transactions for the sample run of the loop. -/
def sampleTransactions : List Transaction :=
  [{ TxID := "0x01", Amount := F64.lit 1 1, Row := 2 },
   { TxID := "0x02", Amount := F64.lit 5 1, Row := 3 },
   { TxID := "0x03", Amount := F64.lit 7 1, Row := 4 }]

/-- The first query fails, the second returns 5, the third returns 8. -/
def sampleAssign (k : Nat) : Except String TransactionResponse :=
  if k = 0 then .error "API请求失败: connection reset"
  else if k = 1 then okAmount (F64.lit 5 1)
  else okAmount (F64.lit 8 1)

/-! ## Properties -/

/-! ### Rate limiter -/

/-- With a quota of at least one, `Wait` returns: it never indexes an empty slice, it keeps
the configuration, and the clock does not run backwards. -/
theorem Wait_some_of_pos (rl : RateLimiter) (now : Int) (late : Nat)
    (h : 1 ≤ rl.maxRequests) :
    ∃ w, rl.Wait now late = some w ∧ w.limiter.maxRequests = rl.maxRequests ∧
      w.limiter.timeWindow = rl.timeWindow ∧ now ≤ w.clock := by
  unfold RateLimiter.Wait
  simp only []
  split_ifs with h1
  · cases hv : rl.requests.filter (fun reqTime => decide (now - reqTime < rl.timeWindow)) with
    | nil => rw [hv] at h1; simp at h1; omega
    | cons oldest rest =>
      simp only []
      split_ifs with h2
      · refine ⟨_, rfl, rfl, rfl, ?_⟩
        dsimp only
        have : (0 : Int) ≤ (late : Int) := Int.ofNat_nonneg _
        omega
      · exact ⟨_, rfl, rfl, rfl, le_refl _⟩
  · exact ⟨_, rfl, rfl, rfl, le_refl _⟩

/-- If every recorded request is at `f` or later, a call of `Wait` either returns at
`f + timeWindow` or later, or returns at once after appending `now` to a list that was
below the quota and lost no entry. -/
theorem Wait_window (rl : RateLimiter) (now : Int) (late : Nat) (f : Int) (w : Waited)
    (hmem : ∀ x ∈ rl.requests, f ≤ x) (hw : rl.Wait now late = some w) :
    f + rl.timeWindow ≤ w.clock ∨
      (w.limiter.requests = rl.requests ++ [now] ∧
        (rl.requests.length : Int) < rl.maxRequests ∧ w.clock = now) := by
  unfold RateLimiter.Wait at hw
  simp only [] at hw
  split_ifs at hw with h1
  · cases hv : rl.requests.filter (fun reqTime => decide (now - reqTime < rl.timeWindow)) with
    | nil => rw [hv] at hw; simp at hw
    | cons oldest rest =>
      rw [hv] at hw
      simp only [] at hw
      have hold : f ≤ oldest := by
        apply hmem
        have : oldest ∈ rl.requests.filter (fun reqTime => decide (now - reqTime < rl.timeWindow)) := by
          rw [hv]; exact List.mem_cons_self _ _
        exact (List.mem_filter.mp this).1
      left
      split_ifs at hw with h2
      · cases hw
        dsimp only
        have : (0 : Int) ≤ (late : Int) := Int.ofNat_nonneg _
        omega
      · cases hw
        dsimp only
        omega
  · cases hw
    dsimp only
    by_cases hall : ∀ x ∈ rl.requests, now - x < rl.timeWindow
    · right
      have hfil : rl.requests.filter (fun reqTime => decide (now - reqTime < rl.timeWindow))
          = rl.requests := by
        rw [List.filter_eq_self]
        intro a ha
        simpa using hall a ha
      rw [hfil] at h1 ⊢
      exact ⟨rfl, by omega, rfl⟩
    · left
      push_neg at hall
      obtain ⟨x, hx, hx2⟩ := hall
      have := hmem x hx
      omega

/-- Invariant of a schedule of calls: from a state where the clock has passed `f + W`, or
where `k` requests are recorded, none before `f`, the last call returns at `f + W` or
later unless the schedule fits in the quota. -/
theorem runWaits_window (f W N : Int) (hN : 1 ≤ N) :
    ∀ (calls : List Call) (rl : RateLimiter) (clock : Int) (k : Nat),
      rl.maxRequests = N → rl.timeWindow = W → f ≤ clock →
      (f + W ≤ clock ∨ (rl.requests.length = k ∧ ∀ x ∈ rl.requests, f ≤ x)) →
      calls ≠ [] →
      ∃ ts last, runWaits rl clock calls = some ts ∧ ts.length = calls.length ∧
        ts.getLast? = some last ∧ (f + W ≤ last ∨ ((k : Int) + (calls.length : Int) ≤ N)) := by
  intro calls
  induction calls with
  | nil => intro rl clock k _ _ _ _ h; exact absurd rfl h
  | cons c cs ih =>
    intro rl clock k hmax hwin hclk hinv _
    have hgap : (0 : Int) ≤ (c.gap : Int) := Int.ofNat_nonneg _
    obtain ⟨w, hw, hwmax, hwwin, hwclk⟩ :=
      Wait_some_of_pos rl (clock + (c.gap : Int)) c.late (by omega)
    have hstep : f + W ≤ w.clock ∨
        ((w.limiter.requests.length = k + 1 ∧ ∀ x ∈ w.limiter.requests, f ≤ x) ∧
          (k : Int) < N) := by
      rcases hinv with h | ⟨hlen, hmem⟩
      · left; omega
      · rcases Wait_window rl (clock + (c.gap : Int)) c.late f w hmem hw with h | ⟨hreq, hlt, _⟩
        · left; omega
        · right
          refine ⟨⟨?_, ?_⟩, ?_⟩
          · rw [hreq]; simp [hlen]
          · intro x hx
            rw [hreq] at hx
            rcases List.mem_append.mp hx with hx | hx
            · exact hmem x hx
            · simp at hx; omega
          · rw [hlen] at hlt; omega
    have hfclk : f ≤ w.clock := by omega
    cases cs with
    | nil =>
      refine ⟨[w.clock], w.clock, ?_, rfl, rfl, ?_⟩
      · simp [runWaits, hw]
      · rcases hstep with h | ⟨_, h⟩
        · left; exact h
        · right; simp; omega
    | cons c2 cs2 =>
      have hinv2 : f + W ≤ w.clock ∨
          (w.limiter.requests.length = k + 1 ∧ ∀ x ∈ w.limiter.requests, f ≤ x) := by
        rcases hstep with h | ⟨h, _⟩
        · left; exact h
        · right; exact h
      obtain ⟨ts, last, hts, hlen, hlast, hfin⟩ :=
        ih w.limiter w.clock (k + 1) (by rw [hwmax, hmax]) (by rw [hwwin, hwin]) hfclk hinv2
          (by simp)
      refine ⟨w.clock :: ts, last, ?_, ?_, ?_, ?_⟩
      · rw [runWaits, hw]
        dsimp only
        rw [hts]
      · simp [hlen]
      · cases ts with
        | nil => simp at hlen
        | cons t ts3 => simpa [List.getLast?_cons_cons] using hlast
      · rcases hfin with h | h
        · left; exact h
        · right; simp at h ⊢; omega

/-- Claim C7: on a limiter freshly built by `NewRateLimiter N W` with `N ≥ 1` (and any window
`W`, positive or not), any schedule of `N + 1` sequential `Wait` calls (arbitrary gaps between the calls, every
`time.Sleep` lasting at least its argument) runs to completion, and its last call returns
at least `W` after the first one returned. -/
theorem Wait_first_blocked (N : Nat) (W : Int) (t0 : Int) (calls : List Call)
    (hN : 1 ≤ N) (hlen : calls.length = N + 1) :
    ∃ first rest last, runWaits (NewRateLimiter (N : Int) W) t0 calls = some (first :: rest) ∧
      rest.length = N ∧ rest.getLast? = some last ∧ first + W ≤ last := by
  cases calls with
  | nil => simp at hlen
  | cons c cs =>
    have hcs : cs.length = N := by simpa using hlen
    have hne : cs ≠ [] := by
      intro h; rw [h] at hcs; simp at hcs; omega
    have hfirst : (NewRateLimiter (N : Int) W).Wait (t0 + (c.gap : Int)) c.late =
        some { limiter := { maxRequests := (N : Int), timeWindow := W,
                            requests := [t0 + (c.gap : Int)] }
               slept := none, clock := t0 + (c.gap : Int) } := by
      have : ¬ ((N : Int) ≤ 0) := by omega
      simp [RateLimiter.Wait, NewRateLimiter, this]
    obtain ⟨ts, last, hts, hl, hlast, hfin⟩ :=
      runWaits_window (t0 + (c.gap : Int)) W (N : Int) (by omega) cs
        { maxRequests := (N : Int), timeWindow := W, requests := [t0 + (c.gap : Int)] }
        (t0 + (c.gap : Int)) 1 rfl rfl (le_refl _)
        (Or.inr ⟨rfl, by intro x hx; simp at hx; omega⟩) hne
    refine ⟨t0 + (c.gap : Int), ts, last, ?_, by omega, hlast, ?_⟩
    · simp [runWaits, hfirst, hts]
    · rcases hfin with h | h
      · exact h
      · exfalso; rw [hcs] at h; simp at h

/-- Witness for C7: quota 2 per 10 s, three calls. -/
theorem Wait_first_blocked_witness :
    ∃ first rest last,
      runWaits (NewRateLimiter ((2 : Nat) : Int) (10 * Second)) 0
        [⟨0, 0⟩, ⟨3, 0⟩, ⟨5, 1⟩] = some (first :: rest) ∧
      rest.length = 2 ∧ rest.getLast? = some last ∧ first + 10 * Second ≤ last :=
  Wait_first_blocked 2 (10 * Second) 0 [⟨0, 0⟩, ⟨3, 0⟩, ⟨5, 1⟩] (by decide) rfl

/-- Claim C1, evaluated on the code: with a quota of 1 per 10 s, three sequential calls
entering at 0 s, 1 s and 10 s (no oversleep) return at 0 s, 10 s and 11 s, because the
second call records its entry time 1 s instead of its admission time 10 s; the window
`[10 s, 20 s)` then holds two admissions. -/
theorem Wait_exceeds_quota :
    runWaits (NewRateLimiter 1 (10 * Second)) 0 [⟨0, 0⟩, ⟨1000000000, 0⟩, ⟨0, 0⟩] =
        some [0, 10 * Second, 11 * Second] ∧
      admittedIn (10 * Second) (10 * Second) [0, 10 * Second, 11 * Second] = 2 := by
  decide

/-- Counterexample to C8: `NewRateLimiter` accepts a quota of 0 and returns a limiter with
that quota, and the first `Wait` on it indexes the empty request list. -/
theorem NewRateLimiter_accepts_zero :
    NewRateLimiter 0 Minute = { maxRequests := 0, timeWindow := Minute, requests := [] } ∧
      (NewRateLimiter 0 Minute).Wait 0 0 = none := by
  decide

/-- Claim C8, amended: `NewRateLimiter` checks nothing and returns a limiter holding its
arguments and no request; the limiter of `NewClient` is `NewRateLimiter 299 Minute`; and on
every limiter whose quota is at least 1, `Wait` returns and keeps the quota. -/
theorem NewRateLimiter_unchecked (maxRequests timeWindow : Int) (endpoint apiKey chain : String)
    (rl : RateLimiter) (now : Int) (late : Nat) (h : 1 ≤ rl.maxRequests) :
    NewRateLimiter maxRequests timeWindow =
        { maxRequests := maxRequests, timeWindow := timeWindow, requests := [] } ∧
      (NewClient endpoint apiKey chain).rateLimiter = NewRateLimiter 299 Minute ∧
      ∃ w, rl.Wait now late = some w ∧ w.limiter.maxRequests = rl.maxRequests ∧
        now ≤ w.clock := by
  refine ⟨rfl, rfl, ?_⟩
  obtain ⟨w, hw, hmax, _, hclk⟩ := Wait_some_of_pos rl now late h
  exact ⟨w, hw, hmax, hclk⟩

/-- Witness for C8: the limiter of `NewClient`, at clock reading 5. -/
theorem NewRateLimiter_unchecked_witness :
    NewRateLimiter 0 Minute = { maxRequests := 0, timeWindow := Minute, requests := [] } ∧
      (NewClient "e" "k" "bsc").rateLimiter = NewRateLimiter 299 Minute ∧
      ∃ w, (NewRateLimiter 299 Minute).Wait 5 0 = some w ∧
        w.limiter.maxRequests = (NewRateLimiter 299 Minute).maxRequests ∧ 5 ≤ w.clock :=
  NewRateLimiter_unchecked 0 Minute "e" "k" "bsc" (NewRateLimiter 299 Minute) 5 0 (by decide)

/-! ### Retrying query client -/

/-- The steps of `QueryTransaction` in a trace extended by further events. -/
theorem retrySteps_append (t u : List Event) :
    retrySteps (t ++ u) = retrySteps t ++ retrySteps u := by
  simp [retrySteps]

/-- Effect of the back-off sleep on the state. -/
theorem Sleep_spec (env : Env) (d : Int) (s : Sys) :
    (Sys.Sleep env d s).calls = s.calls ∧ (Sys.Sleep env d s).client = s.client ∧
      retrySteps (Sys.Sleep env d s).trace = retrySteps s.trace ++ [Event.backoff d] := by
  refine ⟨rfl, rfl, ?_⟩
  simp [Sys.Sleep, retrySteps]

/-- With a quota of at least one, a call of `queryTransactionOnce` returns what
`processReply` makes of the reply it receives, counts one call, keeps the quota and adds one
`attempt` to the steps of `QueryTransaction`. -/
theorem queryTransactionOnce_spec (sc : Strconv) (env : Env) (txid : String) (s : Sys)
    (hq : 1 ≤ s.client.rateLimiter.maxRequests) :
    ∃ s2, queryTransactionOnce sc env txid s = some (processReply sc (env.reply s.calls), s2) ∧
      s2.calls = s.calls + 1 ∧
      s2.client.rateLimiter.maxRequests = s.client.rateLimiter.maxRequests ∧
      retrySteps s2.trace = retrySteps s.trace ++ [Event.attempt txid] := by
  obtain ⟨w, hw, hmax, _, _⟩ :=
    Wait_some_of_pos s.client.rateLimiter s.clock (env.late s.sleeps) hq
  unfold queryTransactionOnce
  rw [hw]
  refine ⟨_, rfl, rfl, hmax, ?_⟩
  dsimp only
  rw [retrySteps_append, retrySteps_append, retrySteps_append]
  have h1 : retrySteps [Event.attempt txid] = [Event.attempt txid] := rfl
  have h2 : retrySteps (match w.slept with
      | some d => [Event.throttle d]
      | none => []) = [] := by
    cases w.slept <;> rfl
  have h3 : retrySteps (match env.reply s.calls with
      | Reply.requestFailed _ => []
      | _ => [Event.get (s.client.endpoint ++ "/" ++ s.client.chainSymbol ++ "/" ++ txid ++
          "?apikey=" ++ s.client.apiKey)]) = [] := by
    cases env.reply s.calls <;> rfl
  rw [h1, h2, h3]
  simp

/-- One iteration of the loop of `QueryTransaction`, with a quota of at least one: the state
`s2` after the attempt, and how the loop goes on from the outcome of the attempt. -/
theorem loop_step (sc : Strconv) (env : Env) (txid : String) (more attempt : Nat) (s : Sys)
    (hq : 1 ≤ s.client.rateLimiter.maxRequests) :
    ∃ s2, s2.calls = s.calls + 1 ∧
      s2.client.rateLimiter.maxRequests = s.client.rateLimiter.maxRequests ∧
      retrySteps s2.trace = retrySteps s.trace ++
        (if 0 < attempt then [Event.backoff ((attempt : Int) * 2 * Second)] else []) ++
        [Event.attempt txid] ∧
      QueryTransaction.loop sc env txid more attempt s =
        match processReply sc (env.reply s.calls) with
        | .ok result => some (.ok result, s2)
        | .error err =>
          if !isTimeoutError (some err) then some (.error err, s2)
          else
            match more with
            | 0 => some (.error err, s2)
            | m + 1 => QueryTransaction.loop sc env txid m (attempt + 1) s2 := by
  by_cases ha : 0 < attempt
  · obtain ⟨hc, hcl, htr⟩ := Sleep_spec env ((attempt : Int) * 2 * Second) s
    obtain ⟨s2, hs2, hcalls, hmax, htrace⟩ :=
      queryTransactionOnce_spec sc env txid (Sys.Sleep env ((attempt : Int) * 2 * Second) s)
        (by rw [hcl]; exact hq)
    refine ⟨s2, by rw [hcalls, hc], by rw [hmax, hcl], ?_, ?_⟩
    · rw [htrace, htr]; simp [ha]
    · rw [QueryTransaction.loop]
      simp only [ha, if_true]
      rw [hs2, hc]
      cases processReply sc (env.reply s.calls) <;> rfl
  · obtain ⟨s2, hs2, hcalls, hmax, htrace⟩ := queryTransactionOnce_spec sc env txid s hq
    refine ⟨s2, hcalls, hmax, ?_, ?_⟩
    · rw [htrace]; simp [ha]
    · rw [QueryTransaction.loop]
      simp only [ha, if_false]
      rw [hs2]
      cases processReply sc (env.reply s.calls) <;> rfl

/-- A reply with status 200 whose body decodes to a payload with `code == 1` and a computable
amount is turned into a result carrying the payload's `txid`, that amount and `"success"`. -/
theorem processReply_success (sc : Strconv) (body : String) (p : TokenViewResponse) (a : F64)
    (hcode : p.Code = 1) (ha : amountOf sc p = .ok a) :
    processReply sc (.response 200 body (.ok p)) =
      .ok { TxID := p.Data.Txid, Amount := a, Status := "success" } := by
  simp [processReply, hcode, ha]

/-- With a quota of at least one, the loop of `QueryTransaction` returns (no panic) and
keeps the quota. -/
theorem loop_returns (sc : Strconv) (env : Env) (txid : String) :
    ∀ (more attempt : Nat) (s : Sys), 1 ≤ s.client.rateLimiter.maxRequests →
      ∃ r s2, QueryTransaction.loop sc env txid more attempt s = some (r, s2) ∧
        s2.client.rateLimiter.maxRequests = s.client.rateLimiter.maxRequests := by
  intro more
  induction more with
  | zero =>
    intro attempt s hq
    obtain ⟨s1, _, hm1, _, hl1⟩ := loop_step sc env txid 0 attempt s hq
    rw [hl1]
    cases processReply sc (env.reply s.calls) with
    | ok r => exact ⟨_, s1, rfl, hm1⟩
    | error e =>
      dsimp only
      cases isTimeoutError (some e) <;> exact ⟨_, s1, rfl, hm1⟩
  | succ m ih =>
    intro attempt s hq
    obtain ⟨s1, _, hm1, _, hl1⟩ := loop_step sc env txid (m + 1) attempt s hq
    rw [hl1]
    cases processReply sc (env.reply s.calls) with
    | ok r => exact ⟨_, s1, rfl, hm1⟩
    | error e =>
      dsimp only
      cases isTimeoutError (some e) with
      | false => exact ⟨_, s1, rfl, hm1⟩
      | true =>
        obtain ⟨r, s2, h2, hm2⟩ := ih (attempt + 1) s1 (by rw [hm1]; exact hq)
        exact ⟨r, s2, h2, by rw [hm2, hm1]⟩

/-- Claim C4: if the first two calls of `queryTransactionOnce` fail with errors that
`isTimeoutError` classifies as transient and the third call fails too (with a transient
error or any other), then `QueryTransaction` calls `queryTransactionOnce` exactly three
times, itself calls `time.Sleep` exactly twice, with 2 s before the second attempt and with
4 s before the third (not before the first, not after the third), and returns no result
together with the error of the third attempt. Sleeps of the rate limiter inside
`queryTransactionOnce` are not steps of `QueryTransaction`; a quota of at least one, as
`NewClient` sets it, is what makes `queryTransactionOnce` return. -/
theorem QueryTransaction_exhausts (sc : Strconv) (env : Env) (txid : String) (s : Sys)
    (e1 e2 e3 : String) (hq : 1 ≤ s.client.rateLimiter.maxRequests)
    (h1 : processReply sc (env.reply s.calls) = .error e1)
    (t1 : isTimeoutError (some e1) = true)
    (h2 : processReply sc (env.reply (s.calls + 1)) = .error e2)
    (t2 : isTimeoutError (some e2) = true)
    (h3 : processReply sc (env.reply (s.calls + 2)) = .error e3) :
    ∃ s3, QueryTransaction sc env txid s = some (.error e3, s3) ∧ s3.calls = s.calls + 3 ∧
      retrySteps s3.trace = retrySteps s.trace ++
        [Event.attempt txid, Event.backoff (2 * Second), Event.attempt txid,
          Event.backoff (4 * Second), Event.attempt txid] := by
  obtain ⟨s1, hc1, hm1, htr1, hl1⟩ := loop_step sc env txid 2 0 s hq
  obtain ⟨s2, hc2, hm2, htr2, hl2⟩ := loop_step sc env txid 1 1 s1 (by rw [hm1]; exact hq)
  obtain ⟨s3, hc3, hm3, htr3, hl3⟩ :=
    loop_step sc env txid 0 2 s2 (by rw [hm2, hm1]; exact hq)
  rw [h1] at hl1
  rw [hc1, h2] at hl2
  rw [hc2, hc1, h3] at hl3
  simp only [t1, t2, Bool.not_true, Bool.false_eq_true, if_false] at hl1 hl2
  have hl3b : QueryTransaction.loop sc env txid 0 2 s2 = some (.error e3, s3) := by
    rw [hl3]
    dsimp only
    cases isTimeoutError (some e3) <;> rfl
  refine ⟨s3, ?_, by omega, ?_⟩
  · unfold QueryTransaction maxRetries
    rw [hl1, hl2, hl3b]
  · rw [htr3, htr2, htr1]
    simp

/-- Witness for C4: every request ends in a client timeout. -/
theorem QueryTransaction_exhausts_witness :
    ∃ s3, QueryTransaction goStrconv timeoutEnv "0xabc" startSys =
        some (.error "API请求失败: context deadline exceeded", s3) ∧
      s3.calls = startSys.calls + 3 ∧
      retrySteps s3.trace = retrySteps startSys.trace ++
        [Event.attempt "0xabc", Event.backoff (2 * Second), Event.attempt "0xabc",
          Event.backoff (4 * Second), Event.attempt "0xabc"] :=
  QueryTransaction_exhausts goStrconv timeoutEnv "0xabc" startSys
    "API请求失败: context deadline exceeded" "API请求失败: context deadline exceeded"
    "API请求失败: context deadline exceeded" (by decide) rfl (by decide) rfl (by decide) rfl

/-- Counterexample to C6: the server answers `code = 0` with the message `timeout`; this
application-code error is classified as transient by its text, so `queryTransactionOnce` is
called three times, with both back-off sleeps. -/
theorem QueryTransaction_retries_code_error :
    (QueryTransaction goStrconv codeZeroEnv "0xabc" startSys).map
        (fun r => (r.1, r.2.calls, retrySteps r.2.trace)) =
      some (.error "API返回错误: code=0, msg=timeout", 3,
        [Event.attempt "0xabc", Event.backoff (2 * Second), Event.attempt "0xabc",
          Event.backoff (4 * Second), Event.attempt "0xabc"]) := by
  decide

/-- Claim C6, amended: if the first call of `queryTransactionOnce` fails with an error, of
whatever kind, whose text contains none of `timeout`, `deadline exceeded`,
`connection refused` (that is, `isTimeoutError` is false on it), then `QueryTransaction`
calls `queryTransactionOnce` exactly once, does not sleep, and returns that error. -/
theorem QueryTransaction_permanent (sc : Strconv) (env : Env) (txid : String) (s : Sys)
    (e : String) (hq : 1 ≤ s.client.rateLimiter.maxRequests)
    (h1 : processReply sc (env.reply s.calls) = .error e)
    (hp : isTimeoutError (some e) = false) :
    ∃ s1, QueryTransaction sc env txid s = some (.error e, s1) ∧ s1.calls = s.calls + 1 ∧
      retrySteps s1.trace = retrySteps s.trace ++ [Event.attempt txid] := by
  obtain ⟨s1, hc1, _, htr1, hl1⟩ := loop_step sc env txid 2 0 s hq
  rw [h1] at hl1
  simp only [hp, Bool.not_false, if_true] at hl1
  refine ⟨s1, ?_, hc1, ?_⟩
  · unfold QueryTransaction maxRetries
    rw [hl1]
  · rw [htr1]; simp

/-- Witness for C6: the server answers `code = 0` with the message `not found`. -/
theorem QueryTransaction_permanent_witness :
    ∃ s1, QueryTransaction goStrconv notFoundEnv "0xabc" startSys =
        some (.error "API返回错误: code=0, msg=not found", s1) ∧
      s1.calls = startSys.calls + 1 ∧
      retrySteps s1.trace = retrySteps startSys.trace ++ [Event.attempt "0xabc"] :=
  QueryTransaction_permanent goStrconv notFoundEnv "0xabc" startSys
    "API返回错误: code=0, msg=not found" (by decide) (by decide) (by decide)

/-- Counterexample to C9: asked for `0xabc`, the client returns a result whose `TxID` is the
`txid` of the payload, `0xdef`. -/
theorem QueryTransaction_txid_from_payload :
    (QueryTransaction goStrconv otherTxidEnv "0xabc" startSys).map (fun r => r.1) =
      some (.ok { TxID := "0xdef", Amount := F64.fin false 5, Status := "success" }) := by
  decide!

/-- Claim C9, amended: if the first `j` calls (`j < 3`) fail with transient errors and the
next reply has status 200 and decodes to a payload with `code == 1` whose amount is
computable, then `QueryTransaction` returns, after `j + 1` calls, a result whose `TxID` is
the `txid` of that payload's data object, whose `Status` is `"success"` and whose `Amount`
is the amount computed from that payload. -/
theorem QueryTransaction_result (sc : Strconv) (env : Env) (txid : String) (s : Sys) (j : Nat)
    (body : String) (p : TokenViewResponse) (a : F64)
    (hq : 1 ≤ s.client.rateLimiter.maxRequests) (hj : j < 3)
    (hfail : ∀ i, i < j →
      ∃ e, processReply sc (env.reply (s.calls + i)) = .error e ∧
        isTimeoutError (some e) = true)
    (hok : env.reply (s.calls + j) = .response 200 body (.ok p))
    (hcode : p.Code = 1) (ha : amountOf sc p = .ok a) :
    ∃ s2, QueryTransaction sc env txid s =
        some (.ok { TxID := p.Data.Txid, Amount := a, Status := "success" }, s2) ∧
      s2.calls = s.calls + j + 1 := by
  have hres := processReply_success sc body p a hcode ha
  rw [← hok] at hres
  obtain ⟨s1, hc1, hm1, _, hl1⟩ := loop_step sc env txid 2 0 s hq
  obtain ⟨s2, hc2, hm2, _, hl2⟩ := loop_step sc env txid 1 1 s1 (by rw [hm1]; exact hq)
  obtain ⟨s3, hc3, _, _, hl3⟩ := loop_step sc env txid 0 2 s2 (by rw [hm2, hm1]; exact hq)
  unfold QueryTransaction maxRetries
  rcases j with _ | _ | _ | j
  · rw [Nat.add_zero] at hres
    rw [hres] at hl1
    exact ⟨s1, hl1, by omega⟩
  · obtain ⟨e1, h1, t1⟩ := hfail 0 (by omega)
    rw [Nat.add_zero] at h1
    rw [h1] at hl1
    rw [hc1, hres] at hl2
    simp only [t1, Bool.not_true, Bool.false_eq_true, if_false] at hl1
    refine ⟨s2, ?_, by omega⟩
    rw [hl1, hl2]
  · obtain ⟨e1, h1, t1⟩ := hfail 0 (by omega)
    obtain ⟨e2, h2, t2⟩ := hfail 1 (by omega)
    rw [Nat.add_zero] at h1
    rw [h1] at hl1
    rw [hc1, h2] at hl2
    rw [hc2, hc1, hres] at hl3
    simp only [t1, t2, Bool.not_true, Bool.false_eq_true, if_false] at hl1 hl2
    refine ⟨s3, ?_, by omega⟩
    rw [hl1, hl2, hl3]
  · omega

/-- Witness for C9: one timeout, then a successful reply for another transaction id. -/
theorem QueryTransaction_result_witness :
    ∃ s2, QueryTransaction goStrconv retryThenOkEnv "0xabc" startSys =
        some (.ok { TxID := "0xdef", Amount := F64.fin false 5, Status := "success" }, s2) ∧
      s2.calls = startSys.calls + 1 + 1 :=
  QueryTransaction_result goStrconv retryThenOkEnv "0xabc" startSys 1 "" otherTxidPayload
    (F64.fin false 5) (by decide) (by decide)
    (fun i hi => ⟨"API请求失败: context deadline exceeded", by
      have : i = 0 := by omega
      subst this
      exact ⟨rfl, by decide⟩⟩)
    rfl rfl (by decide!)

/-! ### Amount normalisation -/

/-- The divisor loop continues a power of ten. -/
theorem divisorLoop_pow (n k : Nat) :
    divisorLoop n (F64.pow (F64.lit 10 1) k) = F64.pow (F64.lit 10 1) (k + n) := by
  induction n generalizing k with
  | zero => rfl
  | succ n ih =>
    have h : divisorLoop (n + 1) (F64.pow (F64.lit 10 1) k) =
        divisorLoop n (F64.pow (F64.lit 10 1) (k + 1)) := rfl
    rw [h, ih]
    congr 1
    omega

/-- The divisor computed for `d` decimals is the float64 power `10 ^ d`. -/
theorem divisorLoop_eq_pow (n : Nat) :
    divisorLoop n (F64.lit 1 1) = F64.pow (F64.lit 10 1) n := by
  have h := divisorLoop_pow n 0
  rw [Nat.zero_add] at h
  exact h

/-- Up to `10 ^ 22` the float64 powers of ten are exact. -/
theorem pow10_exact (d : Nat) (hd : d ≤ 22) :
    F64.pow (F64.lit 10 1) d = F64.fin false (((10 ^ d : Nat) : ℚ)) := by
  interval_cases d <;> decide!

/-- Claim C2: for a reply with status 200 that decodes to a payload with `code == 1`:
if `Data.TokenTransfer` is non-empty and its first entry has a parseable `Value` `v` and a
`TokenDecimals` parsed as `d ≥ 0`, the amount of the result is `v / 10 ^ d` in float64,
whatever `Data.Value` and the later entries are; if `Data.TokenTransfer` is empty, the
amount is the parsed `Data.Value`. Here `10 ^ d` is the float64 power, which the divisor
loop computes; up to `d = 22` it is the exact number `10 ^ d` (for `d = 0` it is 1), so that
the amount of a finite `v` is then the float64 nearest to the real quotient. -/
theorem amount_normalized (sc : Strconv) (body : String) (p : TokenViewResponse)
    (hcode : p.Code = 1) :
    (∀ (first : TokenTransferItem) (rest : List TokenTransferItem) (v : F64) (d : Int),
        p.Data.TokenTransfer = first :: rest → sc.ParseFloat first.Value = .ok v →
        sc.Atoi first.TokenDecimals = .ok d → 0 ≤ d →
        processReply sc (.response 200 body (.ok p)) =
            .ok { TxID := p.Data.Txid
                  Amount := F64.div v (F64.pow (F64.lit 10 1) d.toNat)
                  Status := "success" } ∧
          (d ≤ 22 → ∀ (neg : Bool) (mag : ℚ), v = F64.fin neg mag →
            F64.div v (F64.pow (F64.lit 10 1) d.toNat) =
              F64.round neg (mag / ((10 ^ d.toNat : Nat) : ℚ)))) ∧
      (∀ v : F64, p.Data.TokenTransfer = [] → sc.ParseFloat p.Data.Value = .ok v →
        processReply sc (.response 200 body (.ok p)) =
          .ok { TxID := p.Data.Txid, Amount := v, Status := "success" }) := by
  constructor
  · intro first rest v d htt hv hd hnonneg
    constructor
    · apply processReply_success sc body p _ hcode
      simp only [amountOf, htt, hv, hd]
      rw [divisorLoop_eq_pow]
    · intro hle neg mag hfin
      have hd22 : d.toNat ≤ 22 := by omega
      rw [pow10_exact d.toNat hd22, hfin]
      have hne : ((10 ^ d.toNat : Nat) : ℚ) ≠ 0 := by positivity
      simp [F64.div, hne]
  · intro v htt hv
    apply processReply_success sc body p _ hcode
    simp only [amountOf, htt, hv]

/-- Witness for C2: value `"123000"` with decimals `"3"` gives 123 (native value `"7"` and
a second transfer being ignored), and value `"5"` with decimals `"0"` gives 5. -/
theorem amount_normalized_witness :
    processReply goStrconv (.response 200 "" (.ok tokenPayload)) =
        .ok { TxID := "0xabc", Amount := F64.fin false 123, Status := "success" } ∧
      processReply goStrconv (.response 200 "" (.ok (singleTransfer "5" "0"))) =
        .ok { TxID := "0xabc", Amount := F64.fin false 5, Status := "success" } := by
  constructor
  · have h := ((amount_normalized goStrconv "" tokenPayload rfl).1
      { TokenDecimals := "3", Value := "123000" } [{ TokenDecimals := "0", Value := "9" }]
      (F64.fin false 123000) 3 rfl (by decide!) (by decide) (by decide)).1
    rw [h]
    decide!
  · have h := ((amount_normalized goStrconv "" (singleTransfer "5" "0") rfl).1
      { TokenDecimals := "0", Value := "5" } [] (F64.fin false 5) 0 rfl (by decide!)
      (by decide) (by decide)).1
    rw [h]
    decide!

/-- Claim C5, evaluated on the code: for a payload with `code == 1` whose first token
transfer has value `"1"` and decimals `"-3"`, `queryTransactionOnce` returns a result instead
of the amount-parse error the claim requires: `strconv.Atoi` accepts `"-3"`, no sign check
follows, the divisor loop does not run, and the amount is the raw value 1, which is not the
division by `10 ^ decimals` that the comment of the code announces either. -/
theorem negative_decimals_accepted :
    goAtoi "-3" = .ok (-3) ∧
      processReply goStrconv (.response 200 "" (.ok (singleTransfer "1" "-3"))) =
        .ok { TxID := "0xabc", Amount := F64.fin false 1, Status := "success" } := by
  decide!

/-- Parse failures of the token branch, for any behaviour of `strconv`: for a reply with
status 200 that decodes to a payload with `code == 1` and a non-empty `Data.TokenTransfer`,
`queryTransactionOnce` returns an error exactly when `ParseFloat` rejects the first entry's
`Value` or `Atoi` rejects its `TokenDecimals`; the error is then the amount-parse error
naming the rejected text. The sign of an accepted `TokenDecimals` is never looked at. -/
theorem token_parse_failure (sc : Strconv) (body : String) (p : TokenViewResponse)
    (first : TokenTransferItem) (rest : List TokenTransferItem) (hcode : p.Code = 1)
    (htt : p.Data.TokenTransfer = first :: rest) :
    ((∃ e, processReply sc (.response 200 body (.ok p)) = .error e) ↔
        ((∃ e, sc.ParseFloat first.Value = .error e) ∨
          (∃ e, sc.Atoi first.TokenDecimals = .error e))) ∧
      (∀ e, sc.ParseFloat first.Value = .error e →
        processReply sc (.response 200 body (.ok p)) =
          .error ("解析代币金额失败: " ++ e ++ ", 原始值: " ++ first.Value)) ∧
      (∀ v e, sc.ParseFloat first.Value = .ok v → sc.Atoi first.TokenDecimals = .error e →
        processReply sc (.response 200 body (.ok p)) =
          .error ("解析代币精度失败: " ++ e ++ ", 原始值: " ++ first.TokenDecimals)) := by
  have hpf : ∀ e, sc.ParseFloat first.Value = .error e →
      processReply sc (.response 200 body (.ok p)) =
        .error ("解析代币金额失败: " ++ e ++ ", 原始值: " ++ first.Value) := by
    intro e he
    simp [processReply, hcode, amountOf, htt, he]
  have hat : ∀ v e, sc.ParseFloat first.Value = .ok v →
      sc.Atoi first.TokenDecimals = .error e →
      processReply sc (.response 200 body (.ok p)) =
        .error ("解析代币精度失败: " ++ e ++ ", 原始值: " ++ first.TokenDecimals) := by
    intro v e hv he
    simp [processReply, hcode, amountOf, htt, hv, he]
  refine ⟨⟨?_, ?_⟩, hpf, hat⟩
  · rintro ⟨e, he⟩
    cases hv : sc.ParseFloat first.Value with
    | error e1 => exact Or.inl ⟨e1, rfl⟩
    | ok v =>
      cases hd : sc.Atoi first.TokenDecimals with
      | error e2 => exact Or.inr ⟨e2, rfl⟩
      | ok d =>
        exfalso
        simp [processReply, hcode, amountOf, htt, hv, hd] at he
  · rintro (⟨e, he⟩ | ⟨e, he⟩)
    · exact ⟨_, hpf e he⟩
    · cases hv : sc.ParseFloat first.Value with
      | error e1 => exact ⟨_, hpf e1 hv⟩
      | ok v => exact ⟨_, hat v e hv he⟩

/-- The token branch at value `"abc"` with decimals `"18"`: the amount-parse error. -/
theorem token_parse_failure_witness :
    processReply goStrconv (.response 200 "" (.ok (singleTransfer "abc" "18"))) =
      .error ("解析代币金额失败: " ++ "strconv.ParseFloat: parsing \"abc\": invalid syntax" ++
        ", 原始值: " ++ "abc") :=
  (token_parse_failure goStrconv "" (singleTransfer "abc" "18")
    { TokenDecimals := "18", Value := "abc" } [] rfl rfl).2.1
    "strconv.ParseFloat: parsing \"abc\": invalid syntax" (by decide)

/-! ### Reconciliation loop -/

/-- The float64 constant `0.00000001`. -/
theorem tolerance_eq :
    tolerance = F64.fin false (3022314549036573 / 302231454903657293676544) := by
  decide!

/-- On a difference that is not NaN, `diff > tolerance` is the negation of
`diff <= tolerance`. -/
theorem gt_tolerance_eq_not_le (x : F64) (h : x.isNaN = false) :
    F64.gt (F64.abs x) tolerance = !F64.le (F64.abs x) tolerance := by
  rw [tolerance_eq]
  cases x with
  | nan => simp [F64.isNaN] at h
  | inf s => rfl
  | fin s m =>
    simp only [F64.abs, F64.gt, F64.le]
    by_cases hlt : F64.signed false (3022314549036573 / 302231454903657293676544) <
        F64.signed false m
    · simp [hlt, not_le.mpr hlt]
    · simp [hlt, not_lt.mp hlt]

/-- Counterexample to C3: with a CSV amount that is NaN (the text `NaN` of a CSV cell parses
to it) and an API amount of 1, `|c - a| <= 1e-8` is false, yet the row is classified as
matched: nothing is logged and `mismatchCount` stays 0. And for the pair
`(1.00000000, 1.00000002)` the logged difference is the float64 `-90071993 / 2 ^ 52`, which
is not the float64 `-0.00000002`. -/
theorem nan_amount_is_matched :
    F64.le (F64.abs (F64.sub F64.nan (F64.lit 1 1))) tolerance = false ∧
      (mainBody (scripted (fun _ => okAmount (F64.lit 1 1))) startMain
        { TxID := "0xabc", Amount := F64.nan, Row := 2 }).logged = [] ∧
      (mainBody (scripted (fun _ => okAmount (F64.lit 1 1))) startMain
        { TxID := "0xabc", Amount := F64.nan, Row := 2 }).mismatchCount = 0 ∧
      (mainBody (scripted (fun _ => okAmount (F64.lit 1 1))) startMain
        { TxID := "0xabc", Amount := F64.nan, Row := 2 }).successCount = 1 ∧
      F64.sub (F64.lit 1 1) (F64.lit 100000002 100000000) =
        F64.fin true (90071993 / 4503599627370496) ∧
      F64.sub (F64.lit 1 1) (F64.lit 100000002 100000000) ≠ F64.neg (F64.lit 2 100000000) := by
  decide!

/-- Claim C3, amended: for a transaction with CSV amount `c` whose query succeeded with API
amount `a`, the float64 difference `c - a` not being NaN, the loop body classifies the row
as matched (only `successCount` is incremented) when `|c - a| <= 1e-8`, and otherwise it
also increments `mismatchCount` and logs a `MismatchRecord` with `CSVAmount = c`,
`APIAmount = a`, `Difference = c - a` (signed, in float64) and the transaction's id and
row. -/
theorem mainBody_compare {σ : Type}
    (query : String → σ → Except String TransactionResponse × σ) (m : MainState σ)
    (tx : Transaction) (apiResp : TransactionResponse) (api : σ)
    (hq : query tx.TxID m.api = (.ok apiResp, api))
    (hnan : (F64.sub tx.Amount apiResp.Amount).isNaN = false) :
    (F64.le (F64.abs (F64.sub tx.Amount apiResp.Amount)) tolerance = true →
        mainBody query m tx = { m with api := api, successCount := m.successCount + 1 }) ∧
      (F64.le (F64.abs (F64.sub tx.Amount apiResp.Amount)) tolerance = false →
        mainBody query m tx =
          { m with
            api := api
            logged := m.logged ++ [LogCall.LogMismatch
              { TxID := tx.TxID
                CSVAmount := tx.Amount
                APIAmount := apiResp.Amount
                Difference := F64.sub tx.Amount apiResp.Amount
                Row := tx.Row }]
            mismatchCount := m.mismatchCount + 1
            successCount := m.successCount + 1 }) := by
  have hgt := gt_tolerance_eq_not_le _ hnan
  constructor
  · intro hle
    rw [hle] at hgt
    simp [mainBody, hq, hgt]
  · intro hle
    rw [hle] at hgt
    simp [mainBody, hq, hgt]

/-- Witness for C3: the pair `(1.00000000, 1.000000005)` is matched, and the pair
`(1.00000000, 1.00000002)` is mismatched with the difference `-90071993 / 2 ^ 52`, about
`-2.00000001e-8`. -/
theorem mainBody_compare_witness :
    mainBody (scripted (fun _ => okAmount (F64.lit 1000000005 1000000000))) startMain
        { TxID := "0xabc", Amount := F64.lit 1 1, Row := 2 } =
      { startMain with api := ["0xabc"], successCount := 0 + 1 } ∧
    mainBody (scripted (fun _ => okAmount (F64.lit 100000002 100000000))) startMain
        { TxID := "0xabc", Amount := F64.lit 1 1, Row := 2 } =
      { startMain with
        api := ["0xabc"]
        logged := [] ++ [LogCall.LogMismatch
          { TxID := "0xabc"
            CSVAmount := F64.lit 1 1
            APIAmount := F64.lit 100000002 100000000
            Difference := F64.fin true (90071993 / 4503599627370496)
            Row := 2 }]
        mismatchCount := 0 + 1
        successCount := 0 + 1 } := by
  constructor
  · exact (mainBody_compare (scripted (fun _ => okAmount (F64.lit 1000000005 1000000000)))
      startMain { TxID := "0xabc", Amount := F64.lit 1 1, Row := 2 }
      { TxID := "0xabc", Amount := F64.lit 1000000005 1000000000, Status := "success" }
      ["0xabc"] rfl (by decide!)).1 (by decide!)
  · have h := (mainBody_compare (scripted (fun _ => okAmount (F64.lit 100000002 100000000)))
      startMain { TxID := "0xabc", Amount := F64.lit 1 1, Row := 2 }
      { TxID := "0xabc", Amount := F64.lit 100000002 100000000, Status := "success" }
      ["0xabc"] rfl (by decide!)).2 (by decide!)
    have hd : F64.sub (F64.lit 1 1) (F64.lit 100000002 100000000) =
        F64.fin true (90071993 / 4503599627370496) := by decide!
    rw [h]
    simp only [hd]
    rfl

/-- Failed and successful queries partition the transactions. -/
theorem failed_add_success (l : List (Transaction × Except String TransactionResponse)) :
    (l.filter isFailed).length + (l.filter isSuccess).length = l.length := by
  induction l with
  | nil => rfl
  | cons p l ih =>
    obtain ⟨tx, r⟩ := p
    cases r with
    | error e =>
      have h1 : isFailed (tx, Except.error e) = true := rfl
      have h2 : isSuccess (tx, Except.error e) = false := rfl
      simp only [List.filter_cons, h1, h2, if_true, List.length_cons]
      simp only [Bool.false_eq_true, if_false]
      omega
    | ok a =>
      have h1 : isFailed (tx, Except.ok a) = false := rfl
      have h2 : isSuccess (tx, Except.ok a) = true := rfl
      simp only [List.filter_cons, h1, h2, if_true, List.length_cons]
      simp only [Bool.false_eq_true, if_false]
      omega

/-- Mismatches are among the successful queries. -/
theorem mismatch_le_success (l : List (Transaction × Except String TransactionResponse)) :
    (l.filter isMismatch).length ≤ (l.filter isSuccess).length := by
  induction l with
  | nil => exact le_refl _
  | cons p l ih =>
    obtain ⟨tx, r⟩ := p
    cases r with
    | error e =>
      have h1 : isMismatch (tx, Except.error e) = false := rfl
      have h2 : isSuccess (tx, Except.error e) = false := rfl
      simp only [List.filter_cons, h1, h2, Bool.false_eq_true, if_false]
      exact ih
    | ok a =>
      have h2 : isSuccess (tx, Except.ok a) = true := rfl
      simp only [List.filter_cons, h2, if_true, List.length_cons]
      split
      · simp only [List.length_cons]; omega
      · omega

/-- The loop of `main` from any state, with the scripted client: which ids were asked, the
three counters and the records logged, in terms of the outcomes of the queries. -/
theorem foldl_mainBody (assign : Nat → Except String TransactionResponse) :
    ∀ (txs : List Transaction) (m : MainState (List String)),
      (txs.foldl (mainBody (scripted assign)) m).api = m.api ++ txs.map (fun tx => tx.TxID) ∧
      (txs.foldl (mainBody (scripted assign)) m).failedCount = m.failedCount +
        (((outcomesFrom assign m.api.length txs).filter isFailed).length : Int) ∧
      (txs.foldl (mainBody (scripted assign)) m).successCount = m.successCount +
        (((outcomesFrom assign m.api.length txs).filter isSuccess).length : Int) ∧
      (txs.foldl (mainBody (scripted assign)) m).mismatchCount = m.mismatchCount +
        (((outcomesFrom assign m.api.length txs).filter isMismatch).length : Int) ∧
      (txs.foldl (mainBody (scripted assign)) m).logged = m.logged ++
        (outcomesFrom assign m.api.length txs).filterMap recordOf := by
  intro txs
  induction txs with
  | nil => intro m; simp [outcomesFrom]
  | cons tx txs ih =>
    intro m
    rw [List.foldl_cons]
    have hlen : ∀ (m1 : MainState (List String)), m1.api = m.api ++ [tx.TxID] →
        m1.api.length = m.api.length + 1 := by
      intro m1 h; rw [h]; simp
    cases hr : assign m.api.length with
    | error e =>
      have hm : mainBody (scripted assign) m tx =
          { m with
            api := m.api ++ [tx.TxID]
            logged := m.logged ++
              [LogCall.LogFailed { TxID := tx.TxID, Row := tx.Row, Reason := e }]
            failedCount := m.failedCount + 1 } := by
        simp [mainBody, scripted, hr]
      obtain ⟨h1, h2, h3, h4, h5⟩ := ih (mainBody (scripted assign) m tx)
      rw [hlen _ (by rw [hm])] at h2 h3 h4 h5
      rw [h1, h2, h3, h4, h5, hm]
      have f1 : isFailed (tx, (Except.error e : Except String TransactionResponse)) = true :=
        rfl
      have f2 : isSuccess (tx, (Except.error e : Except String TransactionResponse)) = false :=
        rfl
      have f3 : isMismatch (tx, (Except.error e : Except String TransactionResponse)) = false :=
        rfl
      have f4 : recordOf (tx, (Except.error e : Except String TransactionResponse)) =
          some (LogCall.LogFailed { TxID := tx.TxID, Row := tx.Row, Reason := e }) := rfl
      simp only [outcomesFrom, hr, List.filter_cons, List.filterMap_cons, f1, f2, f3, f4,
        if_true, Bool.false_eq_true, if_false, List.length_cons, List.map_cons]
      refine ⟨by simp, ?_, trivial, trivial, by simp⟩
      push_cast
      ring
    | ok a =>
      by_cases hg : F64.gt (F64.abs (F64.sub tx.Amount a.Amount)) tolerance = true
      · have hm : mainBody (scripted assign) m tx =
            { m with
              api := m.api ++ [tx.TxID]
              logged := m.logged ++ [LogCall.LogMismatch
                { TxID := tx.TxID
                  CSVAmount := tx.Amount
                  APIAmount := a.Amount
                  Difference := F64.sub tx.Amount a.Amount
                  Row := tx.Row }]
              mismatchCount := m.mismatchCount + 1
              successCount := m.successCount + 1 } := by
          simp [mainBody, scripted, hr, hg]
        obtain ⟨h1, h2, h3, h4, h5⟩ := ih (mainBody (scripted assign) m tx)
        rw [hlen _ (by rw [hm])] at h2 h3 h4 h5
        rw [h1, h2, h3, h4, h5, hm]
        have f1 : isFailed (tx, (Except.ok a : Except String TransactionResponse)) = false :=
          rfl
        have f2 : isSuccess (tx, (Except.ok a : Except String TransactionResponse)) = true :=
          rfl
        have f3 : isMismatch (tx, (Except.ok a : Except String TransactionResponse)) = true :=
          hg
        have f4 : recordOf (tx, (Except.ok a : Except String TransactionResponse)) =
            some (LogCall.LogMismatch
              { TxID := tx.TxID
                CSVAmount := tx.Amount
                APIAmount := a.Amount
                Difference := F64.sub tx.Amount a.Amount
                Row := tx.Row }) := by
          simp [recordOf, hg]
        simp only [outcomesFrom, hr, List.filter_cons, List.filterMap_cons, f1, f2, f3, f4,
          if_true, Bool.false_eq_true, if_false, List.length_cons, List.map_cons]
        refine ⟨by simp, trivial, ?_, ?_, by simp⟩
        · push_cast; ring
        · push_cast; ring
      · have hm : mainBody (scripted assign) m tx =
            { m with api := m.api ++ [tx.TxID], successCount := m.successCount + 1 } := by
          simp [mainBody, scripted, hr, hg]
        obtain ⟨h1, h2, h3, h4, h5⟩ := ih (mainBody (scripted assign) m tx)
        rw [hlen _ (by rw [hm])] at h2 h3 h4 h5
        rw [h1, h2, h3, h4, h5, hm]
        have f1 : isFailed (tx, (Except.ok a : Except String TransactionResponse)) = false :=
          rfl
        have f2 : isSuccess (tx, (Except.ok a : Except String TransactionResponse)) = true :=
          rfl
        have f3 : isMismatch (tx, (Except.ok a : Except String TransactionResponse)) = false :=
          by simpa [isMismatch] using hg
        have f4 : recordOf (tx, (Except.ok a : Except String TransactionResponse)) = none := by
          simp [recordOf, hg]
        simp only [outcomesFrom, hr, List.filter_cons, List.filterMap_cons, f1, f2, f3, f4,
          if_true, Bool.false_eq_true, if_false, List.length_cons, List.map_cons]
        refine ⟨by simp, trivial, ?_, trivial, trivial⟩
        push_cast; ring

/-- Claim C10: for every list of transactions and every assignment `assign` of an outcome to
the successive queries, the loop of `main` asks the client for each transaction id exactly
once, in input order, whether or not earlier queries failed; on exit `failedCount` is the
number of transactions whose query returned an error, `successCount` the number whose query
succeeded, `mismatchCount` the number of successful ones with `|csv - api| > 1e-8`; hence
`successCount + failedCount = len(transactions)` and `mismatchCount <= successCount`; the
logger receives one record per failed or mismatched transaction, in order, and then
`WriteSummary` with the length of the list and these three counters. -/
theorem mainLoop_accounting (assign : Nat → Except String TransactionResponse)
    (transactions : List Transaction) :
    (mainLoop (scripted assign) transactions []).api =
        transactions.map (fun tx => tx.TxID) ∧
      (mainLoop (scripted assign) transactions []).failedCount =
        (((outcomesFrom assign 0 transactions).filter isFailed).length : Int) ∧
      (mainLoop (scripted assign) transactions []).successCount =
        (((outcomesFrom assign 0 transactions).filter isSuccess).length : Int) ∧
      (mainLoop (scripted assign) transactions []).mismatchCount =
        (((outcomesFrom assign 0 transactions).filter isMismatch).length : Int) ∧
      (mainLoop (scripted assign) transactions []).successCount +
          (mainLoop (scripted assign) transactions []).failedCount =
        (transactions.length : Int) ∧
      (mainLoop (scripted assign) transactions []).mismatchCount ≤
        (mainLoop (scripted assign) transactions []).successCount ∧
      (mainLoop (scripted assign) transactions []).logged =
        (outcomesFrom assign 0 transactions).filterMap recordOf ++
          [LogCall.WriteSummary (transactions.length : Int)
            (((outcomesFrom assign 0 transactions).filter isSuccess).length : Int)
            (((outcomesFrom assign 0 transactions).filter isMismatch).length : Int)
            (((outcomesFrom assign 0 transactions).filter isFailed).length : Int)] := by
  obtain ⟨h1, h2, h3, h4, h5⟩ := foldl_mainBody assign transactions
    { mismatchCount := 0, failedCount := 0, successCount := 0, logged := [], api := [] }
  simp only [List.length_nil, List.nil_append, zero_add] at h1 h2 h3 h4 h5
  have hlen : (outcomesFrom assign 0 transactions).length = transactions.length := by
    have : ∀ (txs : List Transaction) (k : Nat),
        (outcomesFrom assign k txs).length = txs.length := by
      intro txs
      induction txs with
      | nil => intro k; rfl
      | cons tx txs ih => intro k; simp [outcomesFrom, ih]
    exact this transactions 0
  have hsum := failed_add_success (outcomesFrom assign 0 transactions)
  have hle := mismatch_le_success (outcomesFrom assign 0 transactions)
  unfold mainLoop
  dsimp only
  rw [h1, h2, h3, h4, h5]
  refine ⟨rfl, rfl, rfl, rfl, ?_, ?_, rfl⟩
  · rw [← hlen, ← hsum]; push_cast; ring
  · exact_mod_cast hle

/-- A sample run of the loop: the first query fails, the second matches, the third is off by
one; all three ids are asked in order and the summary is `(3, 2, 1, 1)`. -/
theorem mainLoop_sample :
    (mainLoop (scripted sampleAssign) sampleTransactions []).api = ["0x01", "0x02", "0x03"] ∧
      (mainLoop (scripted sampleAssign) sampleTransactions []).logged.getLast? =
        some (LogCall.WriteSummary 3 2 1 1) := by
  decide!

end BlockchainVerification
